import Mathlib

/-!
Shallow embedding of the canvas2d.ts repository (scene-graph node model in
`bmfontlabel.ts` / `Sprite`, action engine in `action.ts`, stage driver in
`stage.ts`).  Numeric fields of the source (JS numbers) are modelled as
rationals; JS `null`/`undefined` as `Option.none`; JS exceptions as an
explicit error value returned alongside the unmodified state.
-/

namespace Canvas2d

/-! ## Attribute store

`Transition` reads and writes sprite attributes by name
(`sprite[name]`); we model the dynamic attribute map of a JS object as an
association list.  A read of an attribute absent from the sprite (JS
`undefined`) is modelled as `0`; the claims under study only touch
attributes present on the sprite. -/

abbrev Attrs := List (String × ℚ)

def setAttr : Attrs → String → ℚ → Attrs
  | [], n, v => [(n, v)]
  | (m, w) :: rest, n, v =>
    if m = n then (m, v) :: rest else (m, w) :: setAttr rest n v

def getAttr : Attrs → String → Option ℚ
  | [], _ => none
  | (m, w) :: rest, n => if m = n then some w else getAttr rest n

/-- The sprite state visible to the action engine: the dynamic numeric
attributes plus the current texture (textures are identified by id). -/
structure DSprite where
  attrs : Attrs
  texture? : Option Nat
  deriving Repr

/-! ## Behavior units (`IActionDefinition` implementers in `action.ts`) -/

/-- One attribute entry of a `Transition` (`IActionAttr`): target value and
easing function. -/
structure TAttr where
  name : String
  dest : ℚ
  easing : ℚ → ℚ

/-- `class Transition implements IActionDefinition`. -/
structure TransitionS where
  duration : ℚ
  elapsed : ℚ
  attrs : List TAttr
  starts : Attrs
  deltas : Attrs
  done : Bool

/-- `class Animation implements IActionDefinition` (frame animation);
`frameList` holds texture ids, `interval = 1 / frameRate`. -/
structure AnimationS where
  frameList : List Nat
  interval : ℚ
  repetitions : Option Nat
  elapsed : ℚ
  count : Nat
  frameIndex : Nat
  done : Bool
  deriving Repr

/-- The four behavior kinds of `action.ts`.  `Callback` carries an id used
to log its firing instead of an opaque JS function. -/
inductive ActionDef
  | callback (id : Nat) (done : Bool)
  | delay (duration : ℚ) (elapsed : ℚ) (done : Bool)
  | transition (t : TransitionS)
  | animation (a : AnimationS)

namespace ActionDef

def done : ActionDef → Bool
  | .callback _ d => d
  | .delay _ _ d => d
  | .transition t => t.done
  | .animation a => a.done

/-- The `immediate` flags as initialized in the source: `Callback` and
`Delay` are immediate (`action.ts` lines 41 and 61), `Transition` and
`Animation` are not. -/
def immediate : ActionDef → Bool
  | .callback _ _ => true
  | .delay _ _ _ => true
  | .transition _ => false
  | .animation _ => false

end ActionDef

/-- `Transition.end`: snap every attribute exactly to `dest`, mark done. -/
def transitionEnd (t : TransitionS) (sp : DSprite) : TransitionS × DSprite :=
  ({ t with done := true },
   { sp with attrs := t.attrs.foldl (fun m a => setAttr m a.name a.dest) sp.attrs })

/-- One attribute update of `Transition.step`'s interpolation loop: lazily
capture the start value and delta on first touch, then write
`start + easing(percent) * delta`. -/
def transitionAttrStep (percent : ℚ) (acc : Attrs × Attrs × Attrs) (a : TAttr) :
    Attrs × Attrs × Attrs :=
  let (starts, deltas, sp) := acc
  let delta := a.easing percent
  match getAttr starts a.name with
  | some start =>
      (starts, deltas, setAttr sp a.name (start + delta * ((getAttr deltas a.name).getD 0)))
  | none =>
      let start := (getAttr sp a.name).getD 0
      let starts' := setAttr starts a.name start
      let deltas' := setAttr deltas a.name (a.dest - start)
      (starts', deltas', setAttr sp a.name (start + delta * (a.dest - start)))

/-- `Transition.step`. -/
def transitionStep (dt : ℚ) (t : TransitionS) (sp : DSprite) : TransitionS × DSprite :=
  let elapsed := t.elapsed + dt
  if elapsed ≥ t.duration then
    transitionEnd { t with elapsed := elapsed } sp
  else
    let percent := elapsed / t.duration
    let (starts, deltas, attrs) :=
      t.attrs.foldl (transitionAttrStep percent) (t.starts, t.deltas, sp.attrs)
    ({ t with elapsed := elapsed, starts := starts, deltas := deltas },
     { sp with attrs := attrs })

/-- `Animation.step`: one frame advance per elapsed interval; looping and
repetition bookkeeping as in the source.  The third component logs the
texture assignment performed during the step (`sprite.texture = ...`), if
any. -/
def animationStep (dt : ℚ) (a : AnimationS) (sp : DSprite) :
    AnimationS × DSprite × List (Option Nat) :=
  let elapsed := a.elapsed + dt
  if elapsed ≥ a.interval then
    let tex := a.frameList[a.frameIndex]?
    let sp := { sp with texture? := tex }
    let frameIndex := a.frameIndex + 1
    if frameIndex = a.frameList.length then
      match a.repetitions with
      | none => ({ a with elapsed := 0, frameIndex := 0 }, sp, [tex])
      | some reps =>
          if a.count + 1 < reps then
            ({ a with elapsed := 0, frameIndex := 0, count := a.count + 1 }, sp, [tex])
          else
            ({ a with elapsed := 0, frameIndex := frameIndex,
                      count := a.count + 1, done := true }, sp, [tex])
    else
      ({ a with elapsed := 0, frameIndex := frameIndex }, sp, [tex])
  else
    ({ a with elapsed := elapsed }, sp, [])

/-- `step` of a behavior unit.  Returns the updated unit, the updated
sprite, and the list of callback ids fired during the step.  `Callback`
and `Delay` ignore the sprite; `Transition` and `Animation` dereference it
(in engine-reachable states the backreference is non-null whenever the
queue is nonempty, so the `none` case is inert). -/
def defStep (dt : ℚ) (d : ActionDef) (sp? : Option DSprite) :
    ActionDef × Option DSprite × List Nat :=
  match d with
  | .callback id done =>
      if done then (.callback id done, sp?, [])
      else (.callback id true, sp?, [id])
  | .delay duration elapsed done =>
      let elapsed := elapsed + dt
      if elapsed ≥ duration then (.delay duration elapsed true, sp?, [])
      else (.delay duration elapsed done, sp?, [])
  | .transition t =>
      match sp? with
      | some sp =>
          let (t', sp') := transitionStep dt t sp
          (.transition t', some sp', [])
      | none => (.transition t, none, [])
  | .animation a =>
      match sp? with
      | some sp =>
          let (a', sp', _assigned) := animationStep dt a sp
          (.animation a', some sp', [])
      | none => (.animation a, none, [])

/-! ## The per-node `Action` (action.ts `class Action`) -/

structure ActionS where
  queue : List ActionDef
  done : Bool          -- `_done`
  running : Bool
  sprite? : Option DSprite

/-- The queue recursion of `Action.prototype._step`: step the head; if it
reports done, pop it and, unless the queue drained, step the next head
within the same call when the popped unit was immediate.  Returns the
remaining queue, the sprite, and the fired callback ids; an empty result
queue from a nonempty input means the queue drained. -/
def actionStepQ (dt : ℚ) : List ActionDef → Option DSprite →
    List ActionDef × Option DSprite × List Nat
  | [], sp? => ([], sp?, [])
  | d :: rest, sp? =>
      let (d', sp', log) := defStep dt d sp?
      if d'.done then
        if rest.isEmpty then ([], sp', log)
        else if d'.immediate then
          let (q', sp'', log') := actionStepQ dt rest sp'
          (q', sp'', log ++ log')
        else (rest, sp', log)
      else (d' :: rest, sp', log)

/-- `Action.prototype._step`: no-op on an empty queue; otherwise run the
queue recursion, and when it drains the queue mark the action done, stop
it and clear the sprite backreference. -/
def actionStep (dt : ℚ) (a : ActionS) : ActionS × List Nat :=
  match a.queue with
  | [] => (a, [])
  | _ =>
      let (q', sp', log) := actionStepQ dt a.queue a.sprite?
      if q'.isEmpty then
        ({ queue := [], done := true, running := false, sprite? := none }, log)
      else
        ({ a with queue := q', sprite? := sp' }, log)

/-- Iterated `Transition.step` over a sequence of tick durations. -/
def transitionRun (dts : List ℚ) (t : TransitionS) (sp : DSprite) : TransitionS × DSprite :=
  dts.foldl (fun (acc : TransitionS × DSprite) dt => transitionStep dt acc.1 acc.2) (t, sp)

/-- The `Animation` constructor: `interval = 1 / frameRate`, all counters
zero. -/
def mkAnimation (frameList : List Nat) (frameRate : ℚ) (reps? : Option Nat) : AnimationS :=
  { frameList := frameList, interval := 1 / frameRate, repetitions := reps?,
    elapsed := 0, count := 0, frameIndex := 0, done := false }

/-- Iterated `Animation.step` over a sequence of tick durations,
collecting the texture assignments in order. -/
def animRun (dts : List ℚ) (a : AnimationS) (sp : DSprite) :
    AnimationS × DSprite × List (Option Nat) :=
  match dts with
  | [] => (a, sp, [])
  | dt :: rest =>
      let (a', sp', assigned) := animationStep dt a sp
      let (a'', sp'', assigned') := animRun rest a' sp'
      (a'', sp'', assigned ++ assigned')

/-! ## Queue builders (`Action.prototype.then/wait/animate/to`) -/

/-- The `Action` constructor: empty queue, not done, not running, holding
its sprite. -/
def mkAction (sp : DSprite) : ActionS :=
  { queue := [], done := false, running := false, sprite? := some sp }

/-- `addArrayItem`: push only if not already present. -/
def addArrayItem {α : Type} [DecidableEq α] (l : List α) (x : α) : List α :=
  if l.contains x then l else l ++ [x]

/-- `Action.prototype.then`: append a `Callback`. -/
def ActionS.thenCb (id : Nat) (a : ActionS) : ActionS :=
  { a with queue := a.queue ++ [.callback id false] }

/-- `Action.prototype.wait`: append a `Delay`. -/
def ActionS.wait (time : ℚ) (a : ActionS) : ActionS :=
  { a with queue := a.queue ++ [.delay time 0 false] }

/-- `Action.prototype.to`: append a `Transition` (the constructor's
easing-name resolution is elided: attribute entries arrive with their
easing functions already resolved). -/
def ActionS.to (attrs : List TAttr) (duration : ℚ) (a : ActionS) : ActionS :=
  { a with queue := a.queue ++
      [.transition { duration := duration, elapsed := 0, attrs := attrs,
                     starts := [], deltas := [], done := false }] }

/-- `Action.prototype.animate`: push an `Animation` and at once force its
first frame advance by stepping it with `dt = interval` against the
action's sprite (so frame 0 shows without waiting one interval). -/
def ActionS.animate (frameList : List Nat) (frameRate : ℚ) (reps? : Option Nat)
    (a : ActionS) : ActionS :=
  let anim : AnimationS := mkAnimation frameList frameRate reps?
  match a.sprite? with
  | some sp =>
      let (anim', sp', _assigned) := animationStep anim.interval anim sp
      { a with queue := a.queue ++ [.animation anim'], sprite? := some sp' }
  | none => { a with queue := a.queue ++ [.animation anim] }

/-! ## Listener (`action.ts` `class Listener`) -/

/-- Listener state: tracked action ids, the resolved flag, and the two
callback lists (`_callback.any` / `_callback.all`; `none` models a
`null`/absent list, callbacks are identified by id). -/
structure ListenerS where
  actions : List Nat
  resolved : Bool
  anyCbs : Option (List Nat)
  allCbs : Option (List Nat)
  deriving Repr, DecidableEq

/-- `Listener.prototype.allDone`: fire at once when already resolved,
otherwise register (deduplicated).  Returns the immediately fired ids. -/
def ListenerS.allDoneReg (cb : Nat) (s : ListenerS) : ListenerS × List Nat :=
  if s.resolved then (s, [cb])
  else ({ s with allCbs := some (addArrayItem (s.allCbs.getD []) cb) }, [])

/-- `Listener.prototype.anyDone`. -/
def ListenerS.anyDoneReg (cb : Nat) (s : ListenerS) : ListenerS × List Nat :=
  if s.resolved then (s, [cb])
  else ({ s with anyCbs := some (addArrayItem (s.anyCbs.getD []) cb) }, [])

/-- The observable outcome of one `Listener._step`: the published ANY
callback ids, the published ALL callback ids, and whether the listener
removed itself from the engine's listener list. -/
structure ListenerFired where
  anyFired : List Nat
  allFired : List Nat
  removed : Bool
  deriving Repr, DecidableEq

/-- `Listener.prototype._step`, with the tracked actions' `_done` flags
supplied by `doneOf`: recompute ANY/ALL over the tracked actions; publish
and null out the ANY callbacks when any action is done; publish the ALL
callbacks, deregister and mark resolved when all are done. -/
def listenerStep (doneOf : Nat → Bool) (s : ListenerS) : ListenerS × ListenerFired :=
  let dones := s.actions.map doneOf
  let allDone := dones.all id
  let anyDone := dones.any id
  let (s₁, fired₁) :=
    match s.anyCbs with
    | some l => if anyDone then ({ s with anyCbs := none }, l) else (s, [])
    | none => (s, [])
  match s₁.allCbs with
  | some l =>
      if allDone then ({ s₁ with resolved := true }, ⟨fired₁, l, true⟩)
      else (s₁, ⟨fired₁, [], false⟩)
  | none => (s₁, ⟨fired₁, [], false⟩)

/-- The listener phase of `Action.step`: iterate a snapshot
(`_listenerList.slice()`) of the listener list; each listener steps once;
a listener that fired its ALL callbacks removes itself from the live
list.  The second component is the list of fired callback ids in
publication order. -/
def listenersPass (doneOf : Nat → Bool) : List ListenerS → List ListenerS × List Nat
  | [] => ([], [])
  | l :: rest =>
      let (l', fired) := listenerStep doneOf l
      let (rest', fired') := listenersPass doneOf rest
      (if fired.removed then rest' else l' :: rest',
       fired.anyFired ++ fired.allFired ++ fired')

/-! ## Engine state (`Action._actionList` / `Action._listenerList`)

JS actions are heap objects referenced both from the active list and from
listeners; we model the heap as an id-indexed store, the active list as a
list of ids, and listeners as tracking ids. -/

def storeGet (store : List (Nat × ActionS)) (id : Nat) : Option ActionS :=
  match store with
  | [] => none
  | (j, a) :: rest => if j = id then some a else storeGet rest id

def storeSet (store : List (Nat × ActionS)) (id : Nat) (a : ActionS) :
    List (Nat × ActionS) :=
  match store with
  | [] => [(id, a)]
  | (j, b) :: rest => if j = id then (j, a) :: rest else (j, b) :: storeSet rest id a

def storeDone (store : List (Nat × ActionS)) (id : Nat) : Bool :=
  match storeGet store id with
  | some a => a.done
  | none => false

structure EngineState where
  store : List (Nat × ActionS)
  active : List Nat
  listeners : List ListenerS

/-- The active-list loop of `Action.step`
(`for (; action = actionList[i]; i++) { action._step(dt); if (action._done)
removeArrayItem(actionList, action); }`).  `removeArrayItem` locates the
action by identity; since `start()` inserts with deduplication the action
occurs exactly once, at the current index, so removal is `eraseIdx i`.
Note the loop increments `i` even after a removal.  The loop runs at most
`active.length` iterations (it stops as soon as the index leaves the
list), so `fuel` larger than the list length never runs out. -/
def stepActive (dt : ℚ) (fuel : Nat) (store : List (Nat × ActionS))
    (active : List Nat) (i : Nat) : List (Nat × ActionS) × List Nat × List Nat :=
  match fuel with
  | 0 => (store, active, [])
  | fuel + 1 =>
      match active[i]? with
      | none => (store, active, [])
      | some id =>
          match storeGet store id with
          | none =>
              -- unreachable: every id in the active list was put in the store
              stepActive dt fuel store active (i + 1)
          | some a =>
              let (a', log) := actionStep dt a
              let store' := storeSet store id a'
              if a'.done then
                let (s', act', log') :=
                  stepActive dt fuel store' (active.eraseIdx i) (i + 1)
                (s', act', log ++ log')
              else
                let (s', act', log') := stepActive dt fuel store' active (i + 1)
                (s', act', log ++ log')

/-- `Action.step(deltaTime)`: advance every reachable active action, then
run the listener pass over the updated done flags.  Returns the new
engine state and the callback ids fired (queue callbacks first, then
listener callbacks — the ordering guarantee of the spec). -/
def engineStep (dt : ℚ) (e : EngineState) : EngineState × List Nat :=
  let (store', active', log₁) := stepActive dt (e.active.length + 1) e.store e.active 0
  let (listeners', log₂) := listenersPass (storeDone store') e.listeners
  ({ store := store', active := active', listeners := listeners' }, log₁ ++ log₂)

/-- `Action.prototype.start`: idempotent registration in the active list. -/
def startAction (id : Nat) (e : EngineState) : EngineState :=
  match storeGet e.store id with
  | none => e
  | some a =>
      if a.running then e
      else
        { e with active := addArrayItem e.active id,
                 store := storeSet e.store id { a with running := true } }

/-- `Action.prototype.stop`: force done, clear the queue, deregister. -/
def stopAction (id : Nat) (e : EngineState) : EngineState :=
  match storeGet e.store id with
  | none => e
  | some a =>
      { e with
          store := storeSet e.store id
            { a with done := true, running := false, queue := [] },
          active := e.active.erase id }

/-- `Action.listen`: create a listener over the given actions and push it
onto the listener list. -/
def listen (actions : List Nat) (e : EngineState) : EngineState :=
  { e with listeners := e.listeners ++
      [{ actions := actions, resolved := false, anyCbs := none, allCbs := none }] }

/-! ## Scene node layout (`Sprite` in `bmfontlabel.ts`, module version)

The layout-relevant state of one sprite.  A sprite's parent is modelled by
passing the parent's width/height (`pw?`/`ph?`, `none` when the sprite has
no parent) to the operations that consult `this.parent`. -/

/-- `enum AlignType`. -/
inductive AlignType
  | top
  | right
  | bottom
  | left
  | center
  deriving Repr, DecidableEq

/-- `Texture` collaborator: id (standing for object identity), natural
size, readiness. -/
structure TextureS where
  id : Nat
  width : ℚ
  height : ℚ
  ready : Bool
  deriving Repr, DecidableEq

structure SpriteS where
  width : ℚ := 0            -- `_width`
  height : ℚ := 0           -- `_height`
  originX : ℚ := 1/2        -- `_originX`
  originY : ℚ := 1/2        -- `_originY`
  originPixelX : ℚ := 0     -- `_originPixelX`
  originPixelY : ℚ := 0     -- `_originPixelY`
  x : ℚ := 0
  y : ℚ := 0
  top? : Option ℚ := none         -- `_top`
  right? : Option ℚ := none       -- `_right`
  bottom? : Option ℚ := none      -- `_bottom`
  left? : Option ℚ := none        -- `_left`
  percentWidth? : Option ℚ := none
  percentHeight? : Option ℚ := none
  alignX? : Option AlignType := none
  alignY? : Option AlignType := none
  grid? : Option (List ℚ) := none
  autoResize : Bool := true
  texture? : Option TextureS := none
  -- set when the texture setter registers an `onReady` auto-resize
  -- callback on a not-yet-loaded texture
  resizePending : Bool := false
  deriving Repr, DecidableEq

namespace SpriteS

/-- `_adjustAlignX`: reposition `x` against the parent width according to
`alignX`; no-op without a parent or alignment; the `switch` has no
`TOP`/`BOTTOM` arms, so those values leave `x` untouched. -/
def adjustAlignX (pw? : Option ℚ) (s : SpriteS) : SpriteS :=
  match pw?, s.alignX? with
  | some pw, some a =>
      let ox := s.originPixelX
      let x? : Option ℚ :=
        match a with
        | .left => some ox
        | .right => some (pw - (s.width - ox))
        | .center => some (pw * (1/2) + ox - s.width * (1/2))
        | _ => none
      match x? with
      | some x => { s with x := x }
      | none => s
  | _, _ => s

/-- `_adjustAlignY`. -/
def adjustAlignY (ph? : Option ℚ) (s : SpriteS) : SpriteS :=
  match ph?, s.alignY? with
  | some ph, some a =>
      let oy := s.originPixelY
      let y? : Option ℚ :=
        match a with
        | .top => some oy
        | .bottom => some (ph - (s.height - oy))
        | .center => some (ph * (1/2) + oy - s.height * (1/2))
        | _ => none
      match y? with
      | some y => { s with y := y }
      | none => s
  | _, _ => s

/-- `set width(value)` for a sprite with no children (the child re-layout
cascade of a parent sprite is modelled separately on `Fam`): early return
if unchanged, else update `_width`, recompute `_originPixelX`, re-apply
own alignment. -/
def setWidth (pw? : Option ℚ) (value : ℚ) (s : SpriteS) : SpriteS :=
  if s.width = value then s
  else adjustAlignX pw? { s with width := value, originPixelX := value * s.originX }

/-- `set height(value)`. -/
def setHeight (ph? : Option ℚ) (value : ℚ) (s : SpriteS) : SpriteS :=
  if s.height = value then s
  else adjustAlignY ph? { s with height := value, originPixelY := value * s.originY }

/-- `set originX(value)`. -/
def setOriginX (pw? : Option ℚ) (value : ℚ) (s : SpriteS) : SpriteS :=
  if s.originX = value then s
  else adjustAlignX pw? { s with originX := value, originPixelX := value * s.width }

/-- `set originY(value)`. -/
def setOriginY (ph? : Option ℚ) (value : ℚ) (s : SpriteS) : SpriteS :=
  if s.originY = value then s
  else adjustAlignY ph? { s with originY := value, originPixelY := value * s.height }

/-- `_resizeWidth`: no-op without a parent; edge pins `left`+`right` win
over `percentWidth`. -/
def resizeWidth (pw? : Option ℚ) (s : SpriteS) : SpriteS :=
  match pw? with
  | none => s
  | some pw =>
      match s.left?, s.right? with
      | some l, some r =>
          let s := setWidth pw? (pw - l - r) s
          { s with x := l + s.originPixelX }
      | _, _ =>
          match s.percentWidth? with
          | some p => setWidth pw? (pw * p) s
          | none => s

/-- `_resizeHeight`. -/
def resizeHeight (ph? : Option ℚ) (s : SpriteS) : SpriteS :=
  match ph? with
  | none => s
  | some ph =>
      match s.top?, s.bottom? with
      | some t, some b =>
          let s := setHeight ph? (ph - t - b) s
          { s with y := t + s.originPixelY }
      | _, _ =>
          match s.percentHeight? with
          | some p => setHeight ph? (ph * p) s
          | none => s

/-- `set left(left)`: disable autoResize, record the pin, re-resolve. -/
def setLeft (pw? : Option ℚ) (v : ℚ) (s : SpriteS) : SpriteS :=
  resizeWidth pw? { s with autoResize := false, left? := some v }

/-- `set right(right)`. -/
def setRight (pw? : Option ℚ) (v : ℚ) (s : SpriteS) : SpriteS :=
  resizeWidth pw? { s with autoResize := false, right? := some v }

/-- `set top(top)`. -/
def setTop (ph? : Option ℚ) (v : ℚ) (s : SpriteS) : SpriteS :=
  resizeHeight ph? { s with autoResize := false, top? := some v }

/-- `set bottom(bottom)`. -/
def setBottom (ph? : Option ℚ) (v : ℚ) (s : SpriteS) : SpriteS :=
  resizeHeight ph? { s with autoResize := false, bottom? := some v }

/-- `set percentWidth(percentWidth)`. -/
def setPercentWidth (pw? : Option ℚ) (v : ℚ) (s : SpriteS) : SpriteS :=
  resizeWidth pw? { s with autoResize := false, percentWidth? := some v }

/-- `set percentHeight(percentHeight)`. -/
def setPercentHeight (ph? : Option ℚ) (v : ℚ) (s : SpriteS) : SpriteS :=
  resizeHeight ph? { s with autoResize := false, percentHeight? := some v }

/-- `set grid(grid)`: records the 9-slice insets and disables autoResize
(no re-resolution). -/
def setGrid (g : List ℚ) (s : SpriteS) : SpriteS :=
  { s with grid? := some g, autoResize := false }

/-- `set texture(value)` (the `string → Texture.create` branch is elided:
the value arrives as an already-created texture or `null`).  Early return
on identical texture; store it; stop if autoResize is off; otherwise size
from a ready texture, defer via `onReady` for a pending one, and zero the
size through the normal width/height setters for a null texture. -/
def setTexture (pw? ph? : Option ℚ) (value : Option TextureS) (s : SpriteS) : SpriteS :=
  if s.texture? = value then s
  else
    let s := { s with texture? := value }
    if !s.autoResize then s
    else
      match value with
      | some t =>
          if t.ready then setHeight ph? t.height (setWidth pw? t.width s)
          else { s with resizePending := true }
      | none => setHeight ph? 0 (setWidth pw? 0 s)

end SpriteS

/-! ## A parent with (leaf) children, for the re-layout cascade -/

/-- A two-level family: one parent sprite and its direct children (the
children are leaves, which is all the re-layout claims quantify over; a
child with children of its own recurses the same cascade). -/
structure Fam where
  parent : SpriteS
  children : List SpriteS

/-- `set width(value)` on the parent: early return if unchanged; update
`_width`/`_originPixelX`; re-apply own alignment (the parent is the root
here, so against no grandparent); then
`_reLayoutChildrenOnWidthChanged`: each child re-resolves its width and
re-applies its alignment against the new parent width. -/
def Fam.setWidth (value : ℚ) (f : Fam) : Fam :=
  if f.parent.width = value then f
  else
    let p := SpriteS.adjustAlignX none
      { f.parent with width := value, originPixelX := value * f.parent.originX }
    { parent := p,
      children := f.children.map fun c =>
        SpriteS.adjustAlignX (some value) (SpriteS.resizeWidth (some value) c) }

/-- `set height(value)` on the parent, with `_reLayoutChildrenOnHeightChanged`. -/
def Fam.setHeight (value : ℚ) (f : Fam) : Fam :=
  if f.parent.height = value then f
  else
    let p := SpriteS.adjustAlignY none
      { f.parent with height := value, originPixelY := value * f.parent.originY }
    { parent := p,
      children := f.children.map fun c =>
        SpriteS.adjustAlignY (some value) (SpriteS.resizeHeight (some value) c) }

/-! ## Setter sequences -/

/-- One assignment to `width`, `height`, `originX` or `originY` through
its property setter. -/
inductive SizeOriginMut
  | width (v : ℚ)
  | height (v : ℚ)
  | originX (v : ℚ)
  | originY (v : ℚ)

def applySizeOriginMut (pw? ph? : Option ℚ) : SizeOriginMut → SpriteS → SpriteS
  | .width v, s => SpriteS.setWidth pw? v s
  | .height v, s => SpriteS.setHeight ph? v s
  | .originX v, s => SpriteS.setOriginX pw? v s
  | .originY v, s => SpriteS.setOriginY ph? v s

def applySizeOriginMuts (pw? ph? : Option ℚ) (ms : List SizeOriginMut) (s : SpriteS) :
    SpriteS :=
  ms.foldl (fun s m => applySizeOriginMut pw? ph? m s) s

/-- The cached-pixel-offset invariant of the scene node. -/
def originInv (s : SpriteS) : Prop :=
  s.originPixelX = s.originX * s.width ∧ s.originPixelY = s.originY * s.height

/-- One assignment to an edge pin or percent size through its setter. -/
inductive PinOp
  | left (v : ℚ)
  | right (v : ℚ)
  | top (v : ℚ)
  | bottom (v : ℚ)
  | percentWidth (v : ℚ)
  | percentHeight (v : ℚ)

def applyPinOp (pw? ph? : Option ℚ) : PinOp → SpriteS → SpriteS
  | .left v, s => SpriteS.setLeft pw? v s
  | .right v, s => SpriteS.setRight pw? v s
  | .top v, s => SpriteS.setTop ph? v s
  | .bottom v, s => SpriteS.setBottom ph? v s
  | .percentWidth v, s => SpriteS.setPercentWidth pw? v s
  | .percentHeight v, s => SpriteS.setPercentHeight ph? v s

/-- Whether the op belongs to the width dimension
(`left`/`right`/`percentWidth`). -/
def PinOp.widthDim : PinOp → Bool
  | .left _ => true
  | .right _ => true
  | .percentWidth _ => true
  | _ => false

/-- Whether the op belongs to the height dimension
(`top`/`bottom`/`percentHeight`). -/
def PinOp.heightDim : PinOp → Bool
  | .top _ => true
  | .bottom _ => true
  | .percentHeight _ => true
  | _ => false

def applyPinOps (pw? ph? : Option ℚ) (ops : List PinOp) (s : SpriteS) : SpriteS :=
  ops.foldl (fun s o => applyPinOp pw? ph? o s) s

/-! ## The sprite tree (`addChild` and stage propagation)

Sprites are heap objects holding references to each other; we model the
heap as an id-indexed store of tree records. -/

/-- The tree-membership state of one sprite: parent/stage references, the
children list (`none` models the JS `children` field still `undefined`),
and the layout state. -/
structure NodeRec where
  parent? : Option Nat
  stage? : Option Nat
  children? : Option (List Nat)
  sprite : SpriteS
  deriving Repr, DecidableEq

abbrev World := List (Nat × NodeRec)

def nodeGet (w : World) (id : Nat) : Option NodeRec :=
  match w with
  | [] => none
  | (j, n) :: rest => if j = id then some n else nodeGet rest id

def nodeSet (w : World) (id : Nat) (n : NodeRec) : World :=
  match w with
  | [] => [(id, n)]
  | (j, m) :: rest => if j = id then (j, n) :: rest else (j, m) :: nodeSet rest id n

/-- `set stage(stage)`: store the reference and propagate it depth-first
to every descendant (the `ADD_TO_STAGE`/`REMOVED_FROM_STAGE` events are
side effects on out-of-scope observers).  `fuel` bounds the recursion
depth; any fuel at least the world size suffices on the acyclic trees the
library builds. -/
def setStageW (fuel : Nat) (stage? : Option Nat) (w : World) (id : Nat) : World :=
  match fuel with
  | 0 => w
  | fuel + 1 =>
      match nodeGet w id with
      | none => w
      | some n =>
          let w := nodeSet w id { n with stage? := stage? }
          (n.children?.getD []).foldl (fun w c => setStageW fuel stage? w c) w

/-- `Sprite.prototype.addChild(target, position?)`: fail if the target
already has a parent (before any mutation); otherwise ensure the children
list exists, skip if the target is already a child, else insert at
`position` when `0 ≤ position < length` (out-of-range or absent appends),
set the target's parent (whose setter re-applies the target's alignment),
propagate the stage reference if present, and resolve the target's width
then height against this sprite.  Returns the updated world and the error
message, if any (a raised error leaves the world as mutated so far — here
untouched, since the check precedes all mutation). -/
def addChildW (w : World) (pid cid : Nat) (pos? : Option Nat) : World × Option String :=
  match nodeGet w pid, nodeGet w cid with
  | some p, some c =>
      if c.parent?.isSome then
        (w, some "canvas2d.Sprite.addChild(): Child has been added.")
      else
        let children := p.children?.getD []
        let w := nodeSet w pid { p with children? := some children }
        if children.contains cid then (w, none)
        else
          let children' :=
            match pos? with
            | some pos =>
                if pos < children.length then children.insertIdx pos cid
                else children ++ [cid]
            | none => children ++ [cid]
          let w := nodeSet w pid { p with children? := some children' }
          let c := { c with
            parent? := some pid,
            sprite := SpriteS.adjustAlignY (some p.sprite.height)
              (SpriteS.adjustAlignX (some p.sprite.width) c.sprite) }
          let w := nodeSet w cid c
          let w :=
            match p.stage? with
            | some st => setStageW w.length (some st) w cid
            | none => w
          let w :=
            match nodeGet w cid with
            | some c2 =>
                nodeSet w cid { c2 with
                  sprite := SpriteS.resizeHeight (some p.sprite.height)
                    (SpriteS.resizeWidth (some p.sprite.width) c2.sprite) }
            | none => w
          (w, none)
  | _, _ => (w, none)

/-! ## Concrete scenarios named by the specification -/

/-- A sprite carrying a single dynamic attribute `x = 0`. -/
def xSprite : DSprite := ⟨[("x", 0)], none⟩

/-- The queue `[Callback, Delay(1.0), Callback]` built by
`action.then(f).wait(1.0).then(g)` (callback ids 0 and 1). -/
def C1action : ActionS := (((mkAction xSprite).thenCb 0).wait 1).thenCb 1

/-- The engine holding the started `C1action` as action id 0. -/
def C1engine : EngineState :=
  startAction 0 { store := [(0, C1action)], active := [], listeners := [] }

/-- Two started actions: id 0 is a single `Callback` (drains on the first
tick), id 1 is a `Delay(10)` right after it in the active list. -/
def C2engine : EngineState :=
  startAction 1 (startAction 0
    { store := [(0, (mkAction xSprite).thenCb 0), (1, (mkAction xSprite).wait 10)],
      active := [], listeners := [] })

/-- A `Transition` to `{x: 100}` over duration 1.0 (linear easing), as
built by `Action.to`. -/
def C4trans : TransitionS :=
  { duration := 1, elapsed := 0, attrs := [⟨"x", 100, fun p => p⟩],
    starts := [], deltas := [], done := false }

/-- A 3-frame animation (texture ids 10, 11, 12) at 10 fps with 2
repetitions. -/
def C5anim0 : AnimationS := mkAnimation [10, 11, 12] 10 (some 2)

/-- The forced first advance performed at construction by
`Action.animate`. -/
def C5forced : AnimationS × DSprite × List (Option Nat) :=
  animationStep C5anim0.interval C5anim0 xSprite

/-- The same animation with `repetitions = null`, after its forced first
advance. -/
def C5nullForced : AnimationS × DSprite × List (Option Nat) :=
  animationStep (mkAnimation [10, 11, 12] 10 none).interval
    (mkAnimation [10, 11, 12] 10 none) xSprite

end Canvas2d

namespace Canvas2d

/-! ## Helper lemmas -/

/-- `_adjustAlignX` mutates `x` at most. -/
theorem adjustAlignX_shape (pw? : Option ℚ) (s : SpriteS) :
    ∃ x', SpriteS.adjustAlignX pw? s = { s with x := x' } := by
  obtain ⟨w, h, ox, oy, opx, opy, x, y, t?, r?, b?, l?, pcw, pch, ax, ay, g, ar, tex, rp⟩ := s
  unfold SpriteS.adjustAlignX
  cases pw? with
  | none => exact ⟨x, rfl⟩
  | some pw =>
    cases ax with
    | none => exact ⟨x, rfl⟩
    | some a => cases a <;> exact ⟨_, rfl⟩

/-- `_adjustAlignY` mutates `y` at most. -/
theorem adjustAlignY_shape (ph? : Option ℚ) (s : SpriteS) :
    ∃ y', SpriteS.adjustAlignY ph? s = { s with y := y' } := by
  obtain ⟨w, h, ox, oy, opx, opy, x, y, t?, r?, b?, l?, pcw, pch, ax, ay, g, ar, tex, rp⟩ := s
  unfold SpriteS.adjustAlignY
  cases ph? with
  | none => exact ⟨y, rfl⟩
  | some ph =>
    cases ay with
    | none => exact ⟨y, rfl⟩
    | some a => cases a <;> exact ⟨_, rfl⟩

/-- `set width` always leaves the requested width, recomputes the pixel
offset of the origin, and touches `x` at most beyond that. -/
theorem setWidth_shape (pw? : Option ℚ) (v : ℚ) (s : SpriteS) :
    ∃ opx' x', SpriteS.setWidth pw? v s = { s with width := v, originPixelX := opx', x := x' } := by
  unfold SpriteS.setWidth
  split
  · next h => exact ⟨s.originPixelX, s.x, by rw [← h]⟩
  · obtain ⟨x', hx⟩ := adjustAlignX_shape pw?
      { s with width := v, originPixelX := v * s.originX }
    exact ⟨v * s.originX, x', hx⟩

/-- `set height` analogue of `setWidth_shape`. -/
theorem setHeight_shape (ph? : Option ℚ) (v : ℚ) (s : SpriteS) :
    ∃ opy' y', SpriteS.setHeight ph? v s = { s with height := v, originPixelY := opy', y := y' } := by
  unfold SpriteS.setHeight
  split
  · next h => exact ⟨s.originPixelY, s.y, by rw [← h]⟩
  · obtain ⟨y', hy⟩ := adjustAlignY_shape ph?
      { s with height := v, originPixelY := v * s.originY }
    exact ⟨v * s.originY, y', hy⟩

theorem setWidth_width (pw? : Option ℚ) (v : ℚ) (s : SpriteS) :
    (SpriteS.setWidth pw? v s).width = v := by
  obtain ⟨opx', x', hh⟩ := setWidth_shape pw? v s
  rw [hh]

theorem setHeight_height (ph? : Option ℚ) (v : ℚ) (s : SpriteS) :
    (SpriteS.setHeight ph? v s).height = v := by
  obtain ⟨opy', y', hh⟩ := setHeight_shape ph? v s
  rw [hh]

/-- `_resizeWidth` with both pins present resolves
`width = parent.width - left - right` and repositions
`x = left + originPixelX` (against the freshly recomputed offset). -/
theorem resizeWidth_pins (pw l r : ℚ) (s : SpriteS)
    (hl : s.left? = some l) (hr : s.right? = some r) :
    (SpriteS.resizeWidth (some pw) s).width = pw - l - r ∧
    (SpriteS.resizeWidth (some pw) s).x
      = l + (SpriteS.resizeWidth (some pw) s).originPixelX := by
  unfold SpriteS.resizeWidth
  rw [hl, hr]
  exact ⟨setWidth_width (some pw) (pw - l - r) s, rfl⟩

/-- `_resizeWidth` mutates `width`, `originPixelX` and `x` at most. -/
theorem resizeWidth_shape (pw? : Option ℚ) (s : SpriteS) :
    ∃ w' opx' x',
      SpriteS.resizeWidth pw? s = { s with width := w', originPixelX := opx', x := x' } := by
  obtain ⟨w, hgt, ox, oy, opx, opy, x, y, t?, r?, b?, l?, pcw, pch, ax, ay, g, ar, tex, rp⟩ := s
  unfold SpriteS.resizeWidth
  cases pw? with
  | none => exact ⟨w, opx, x, rfl⟩
  | some pw =>
    cases l? with
    | some l =>
      cases r? with
      | some r =>
        obtain ⟨opx', x', hh⟩ := setWidth_shape (some pw) (pw - l - r)
          ⟨w, hgt, ox, oy, opx, opy, x, y, t?, some r, b?, some l, pcw, pch, ax, ay, g, ar, tex, rp⟩
        dsimp only
        rw [hh]
        exact ⟨pw - l - r, opx', l + opx', rfl⟩
      | none =>
        cases pcw with
        | some p =>
          obtain ⟨opx', x', hh⟩ := setWidth_shape (some pw) (pw * p)
            ⟨w, hgt, ox, oy, opx, opy, x, y, t?, none, b?, some l, some p, pch, ax, ay, g, ar, tex, rp⟩
          dsimp only
          rw [hh]
          exact ⟨pw * p, opx', x', rfl⟩
        | none => exact ⟨w, opx, x, rfl⟩
    | none =>
      cases pcw with
      | some p =>
        obtain ⟨opx', x', hh⟩ := setWidth_shape (some pw) (pw * p)
          ⟨w, hgt, ox, oy, opx, opy, x, y, t?, r?, b?, none, some p, pch, ax, ay, g, ar, tex, rp⟩
        dsimp only
        rw [hh]
        exact ⟨pw * p, opx', x', rfl⟩
      | none => exact ⟨w, opx, x, rfl⟩

/-- `_resizeHeight` mutates `height`, `originPixelY` and `y` at most. -/
theorem resizeHeight_shape (ph? : Option ℚ) (s : SpriteS) :
    ∃ h' opy' y',
      SpriteS.resizeHeight ph? s = { s with height := h', originPixelY := opy', y := y' } := by
  obtain ⟨w, hgt, ox, oy, opx, opy, x, y, t?, r?, b?, l?, pcw, pch, ax, ay, g, ar, tex, rp⟩ := s
  unfold SpriteS.resizeHeight
  cases ph? with
  | none => exact ⟨hgt, opy, y, rfl⟩
  | some ph =>
    cases t? with
    | some t =>
      cases b? with
      | some b =>
        obtain ⟨opy', y', hh⟩ := setHeight_shape (some ph) (ph - t - b)
          ⟨w, hgt, ox, oy, opx, opy, x, y, some t, r?, some b, l?, pcw, pch, ax, ay, g, ar, tex, rp⟩
        dsimp only
        rw [hh]
        exact ⟨ph - t - b, opy', t + opy', rfl⟩
      | none =>
        cases pch with
        | some p =>
          obtain ⟨opy', y', hh⟩ := setHeight_shape (some ph) (ph * p)
            ⟨w, hgt, ox, oy, opx, opy, x, y, some t, r?, none, l?, pcw, some p, ax, ay, g, ar, tex, rp⟩
          dsimp only
          rw [hh]
          exact ⟨ph * p, opy', y', rfl⟩
        | none => exact ⟨hgt, opy, y, rfl⟩
    | none =>
      cases pch with
      | some p =>
        obtain ⟨opy', y', hh⟩ := setHeight_shape (some ph) (ph * p)
          ⟨w, hgt, ox, oy, opx, opy, x, y, none, r?, b?, l?, pcw, some p, ax, ay, g, ar, tex, rp⟩
        dsimp only
        rw [hh]
        exact ⟨ph * p, opy', y', rfl⟩
      | none => exact ⟨hgt, opy, y, rfl⟩

/-- One width/height/origin setter preserves the origin-pixel invariant. -/
theorem originInv_step (pw? ph? : Option ℚ) (m : SizeOriginMut) (s : SpriteS)
    (h : originInv s) : originInv (applySizeOriginMut pw? ph? m s) := by
  obtain ⟨h₁, h₂⟩ := h
  cases m with
  | width v =>
    show originInv (SpriteS.setWidth pw? v s)
    unfold SpriteS.setWidth
    by_cases hw : s.width = v
    · rw [if_pos hw]; exact ⟨h₁, h₂⟩
    · rw [if_neg hw]
      obtain ⟨x', hx⟩ := adjustAlignX_shape pw?
        { s with width := v, originPixelX := v * s.originX }
      rw [hx]
      exact ⟨mul_comm v s.originX, h₂⟩
  | height v =>
    show originInv (SpriteS.setHeight ph? v s)
    unfold SpriteS.setHeight
    by_cases hw : s.height = v
    · rw [if_pos hw]; exact ⟨h₁, h₂⟩
    · rw [if_neg hw]
      obtain ⟨y', hy⟩ := adjustAlignY_shape ph?
        { s with height := v, originPixelY := v * s.originY }
      rw [hy]
      exact ⟨h₁, mul_comm v s.originY⟩
  | originX v =>
    show originInv (SpriteS.setOriginX pw? v s)
    unfold SpriteS.setOriginX
    by_cases hw : s.originX = v
    · rw [if_pos hw]; exact ⟨h₁, h₂⟩
    · rw [if_neg hw]
      obtain ⟨x', hx⟩ := adjustAlignX_shape pw?
        { s with originX := v, originPixelX := v * s.width }
      rw [hx]
      exact ⟨rfl, h₂⟩
  | originY v =>
    show originInv (SpriteS.setOriginY ph? v s)
    unfold SpriteS.setOriginY
    by_cases hw : s.originY = v
    · rw [if_pos hw]; exact ⟨h₁, h₂⟩
    · rw [if_neg hw]
      obtain ⟨y', hy⟩ := adjustAlignY_shape ph?
        { s with originY := v, originPixelY := v * s.height }
      rw [hy]
      exact ⟨h₁, rfl⟩

/-! ## C3 -/

/-- C3: after any finite sequence of assignments to `width`, `height`,
`originX` and `originY` through the property setters, the cached pixel
offsets satisfy `originPixelX = originX * width` and
`originPixelY = originY * height` (given the invariant held before, as it
does in the constructor-default state). -/
theorem origin_pixel_invariant (pw? ph? : Option ℚ) (ms : List SizeOriginMut)
    (s : SpriteS) (h : originInv s) :
    originInv (applySizeOriginMuts pw? ph? ms s) := by
  induction ms generalizing s with
  | nil => exact h
  | cons m rest ih => exact ih _ (originInv_step pw? ph? m s h)

/-- Witness: the default-constructed sprite satisfies the invariant, and
after `width := 10; originX := 1/4; height := 8; originY := 1` the cached
offsets still match. -/
theorem origin_pixel_invariant_witness :
    originInv ({} : SpriteS) ∧
    originInv (applySizeOriginMuts none none
      [.width 10, .originX (1/4), .height 8, .originY 1] {}) :=
  ⟨by constructor <;> norm_num,
   origin_pixel_invariant none none _ {} (by constructor <;> norm_num)⟩

theorem getAttr_setAttr_self (m : Attrs) (n : String) (v : ℚ) :
    getAttr (setAttr m n v) n = some v := by
  induction m with
  | nil => simp [setAttr, getAttr]
  | cons p rest ih =>
    obtain ⟨pn, pv⟩ := p
    by_cases hp : pn = n
    · simp [setAttr, getAttr, hp]
    · simp [setAttr, getAttr, hp, ih]

theorem getAttr_setAttr_ne (m : Attrs) (n n' : String) (v : ℚ) (h : n ≠ n') :
    getAttr (setAttr m n v) n' = getAttr m n' := by
  induction m with
  | nil => simp [setAttr, getAttr, h]
  | cons p rest ih =>
    obtain ⟨pn, pv⟩ := p
    by_cases hp : pn = n
    · subst hp; simp [setAttr, getAttr, h]
    · simp only [setAttr, if_neg hp]
      by_cases hp' : pn = n' <;> simp [getAttr, hp', ih]

/-- Folding `Transition.end`'s write loop over attributes whose names
avoid `n` leaves the binding of `n` unchanged. -/
theorem getAttr_writeAll_not_mem (attrs : List TAttr) (m : Attrs) (n : String)
    (h : n ∉ attrs.map TAttr.name) :
    getAttr (attrs.foldl (fun m a => setAttr m a.name a.dest) m) n = getAttr m n := by
  induction attrs generalizing m with
  | nil => rfl
  | cons b rest ih =>
    simp only [List.map_cons, List.mem_cons] at h
    push_neg at h
    rw [List.foldl_cons, ih _ h.2, getAttr_setAttr_ne _ _ _ _ (Ne.symm h.1)]

/-- `Transition.end`'s write loop leaves every attribute of a
duplicate-free attribute map at exactly its `dest`. -/
theorem getAttr_writeAll_mem (attrs : List TAttr) (m : Attrs) (a : TAttr)
    (ha : a ∈ attrs) (hnd : (attrs.map TAttr.name).Nodup) :
    getAttr (attrs.foldl (fun m a => setAttr m a.name a.dest) m) a.name = some a.dest := by
  induction attrs generalizing m with
  | nil => cases ha
  | cons b rest ih =>
    rw [List.foldl_cons]
    simp only [List.map_cons, List.nodup_cons] at hnd
    rcases List.mem_cons.mp ha with rfl | ha'
    · rw [getAttr_writeAll_not_mem rest _ _ hnd.1, getAttr_setAttr_self]
    · exact ih _ ha' hnd.2

/-- `Transition.step` preserves the duration and the attribute list, and
accumulates the elapsed time. -/
theorem transitionStep_fields (dt : ℚ) (t : TransitionS) (sp : DSprite) :
    (transitionStep dt t sp).1.duration = t.duration ∧
    (transitionStep dt t sp).1.attrs = t.attrs ∧
    (transitionStep dt t sp).1.elapsed = t.elapsed + dt := by
  unfold transitionStep
  dsimp only
  by_cases hc : t.elapsed + dt ≥ t.duration
  · rw [if_pos hc]; exact ⟨rfl, rfl, rfl⟩
  · rw [if_neg hc]
    rcases hfold : t.attrs.foldl (transitionAttrStep ((t.elapsed + dt) / t.duration))
        (t.starts, t.deltas, sp.attrs) with ⟨st, dl, ats⟩
    exact ⟨rfl, rfl, rfl⟩

/-- Iterating `Transition.step` preserves duration and attributes, and the
elapsed time ends at the sum of the tick durations. -/
theorem transitionRun_fields (dts : List ℚ) (t : TransitionS) (sp : DSprite) :
    (transitionRun dts t sp).1.duration = t.duration ∧
    (transitionRun dts t sp).1.attrs = t.attrs ∧
    (transitionRun dts t sp).1.elapsed = t.elapsed + dts.sum := by
  induction dts generalizing t sp with
  | nil => exact ⟨rfl, rfl, by simp [transitionRun]⟩
  | cons dt rest ih =>
    obtain ⟨hd, ha, he⟩ := transitionStep_fields dt t sp
    obtain ⟨hd', ha', he'⟩ := ih (transitionStep dt t sp).1 (transitionStep dt t sp).2
    refine ⟨hd'.trans hd, ha'.trans ha, he'.trans ?_⟩
    rw [he, List.sum_cons]
    ring

/-! ## C4 -/

/-- C4: once the cumulative elapsed time accumulated through
`Transition.step` reaches or exceeds the duration, the final step runs
`Transition.end`: the transition is marked done and every attribute of a
duplicate-free attribute map is exactly its declared `dest` on the
sprite. -/
theorem transition_end_snap (t : TransitionS) (sp : DSprite) (dts : List ℚ)
    (hne : dts ≠ [])
    (hsum : t.elapsed + dts.sum ≥ t.duration)
    (hnd : (t.attrs.map TAttr.name).Nodup) :
    (transitionRun dts t sp).1.done = true ∧
    ∀ a ∈ t.attrs, getAttr (transitionRun dts t sp).2.attrs a.name = some a.dest := by
  obtain ⟨init, last, rfl⟩ := (List.eq_nil_or_concat dts).resolve_left hne
  have hsplit : transitionRun (init.concat last) t sp
      = transitionStep last (transitionRun init t sp).1 (transitionRun init t sp).2 := by
    unfold transitionRun
    rw [List.concat_eq_append, List.foldl_append]
    rfl
  obtain ⟨hd, ha, he⟩ := transitionRun_fields init t sp
  have hcond : (transitionRun init t sp).1.elapsed + last
      ≥ (transitionRun init t sp).1.duration := by
    rw [he, hd]
    rw [List.concat_eq_append, List.sum_append, List.sum_cons, List.sum_nil] at hsum
    linarith
  have hstep : transitionStep last (transitionRun init t sp).1 (transitionRun init t sp).2
      = transitionEnd
          { (transitionRun init t sp).1 with
              elapsed := (transitionRun init t sp).1.elapsed + last }
          (transitionRun init t sp).2 := by
    unfold transitionStep
    dsimp only
    rw [if_pos hcond]
  rw [hsplit, hstep]
  unfold transitionEnd
  refine ⟨rfl, fun a haa => ?_⟩
  dsimp only
  rw [ha]
  exact getAttr_writeAll_mem t.attrs _ a haa hnd

/-- Witness: the `{x: 100}` transition over duration 1, ticked twice by
0.6s (cumulative 1.2 ≥ 1), leaves `x` exactly 100 and is done. -/
theorem transition_end_snap_witness :
    (transitionRun [3/5, 3/5] C4trans xSprite).1.done = true ∧
    getAttr (transitionRun [3/5, 3/5] C4trans xSprite).2.attrs "x" = some 100 := by
  have h := transition_end_snap C4trans xSprite [3/5, 3/5] (by simp)
    (by norm_num [C4trans]) (by simp [C4trans])
  exact ⟨h.1, h.2 ⟨"x", 100, fun p => p⟩ (by simp [C4trans])⟩

/-- `Animation.step` never sets `done` when `repetitions` is null, and
preserves the null `repetitions`. -/
theorem animationStep_none (dt : ℚ) (a : AnimationS) (sp : DSprite)
    (hr : a.repetitions = none) :
    (animationStep dt a sp).1.done = a.done ∧
    (animationStep dt a sp).1.repetitions = none := by
  unfold animationStep
  dsimp only
  by_cases hc : a.elapsed + dt ≥ a.interval
  · rw [if_pos hc]
    by_cases hf : a.frameIndex + 1 = a.frameList.length
    · rw [if_pos hf, hr]
      exact ⟨rfl, rfl⟩
    · rw [if_neg hf]
      exact ⟨rfl, hr⟩
  · rw [if_neg hc]
    exact ⟨rfl, hr⟩

/-- An animation with null `repetitions` never marks itself done, however
many intervals elapse. -/
theorem animRun_none (dts : List ℚ) (a : AnimationS) (sp : DSprite)
    (hr : a.repetitions = none) (hd : a.done = false) :
    (animRun dts a sp).1.done = false := by
  induction dts generalizing a sp with
  | nil => exact hd
  | cons dt rest ih =>
    obtain ⟨h1, h2⟩ := animationStep_none dt a sp hr
    unfold animRun
    rcases hstep : animationStep dt a sp with ⟨a', sp', asg⟩
    rw [hstep] at h1 h2
    dsimp only at h1 h2 ⊢
    have ihh := ih a' sp' h2 (h1.trans hd)
    rcases hrun : animRun rest a' sp' with ⟨a'', sp'', l'⟩
    rw [hrun] at ihh
    exact ihh

/-! ## C5 -/

/-- C5: the 3-frame animation (texture ids 10, 11, 12) at 10 fps with
`repetitions = 2`, after the forced construction-time advance plus five
further interval-sized ticks, assigns the sprite texture in exactly the
frame order `[0,1,2,0,1,2]` and then marks itself done; with
`repetitions = null` the animation (also force-advanced at construction,
showing frame 0) never marks itself done, whatever ticks follow. -/
theorem frame_animation_repetitions :
    C5forced.2.2 ++ (animRun (List.replicate 5 C5anim0.interval) C5forced.1 C5forced.2.1).2.2
      = [some 10, some 11, some 12, some 10, some 11, some 12] ∧
    (animRun (List.replicate 5 C5anim0.interval) C5forced.1 C5forced.2.1).1.done = true ∧
    C5nullForced.2.2 = [some 10] ∧
    (∀ (dts : List ℚ) (sp : DSprite), (animRun dts C5nullForced.1 sp).1.done = false) := by
  refine ⟨?_, ?_, ?_, fun dts sp => animRun_none dts _ sp ?_ ?_⟩ <;>
    norm_num [C5forced, C5nullForced, C5anim0, mkAnimation, animationStep, animRun,
      xSprite, List.replicate]

/-! ## C6 -/

/-- C6: listener semantics.  (1) When any tracked action is done, a
registered ANY-callback list fires and is nulled out, so (2) later checks
fire no ANY callbacks.  (3) A check at which not all actions are done
neither resolves the listener, nor removes it, nor fires ALL callbacks.
(4) When all tracked actions are done, a registered ALL-callback list
fires, the listener marks itself resolved and removes itself from the
listener list, and (5) the engine's listener pass indeed drops it, so it
is never stepped (hence never fired) again.  (6) An `allDone`/`anyDone`
registration on a resolved listener invokes its callback at once,
leaving the listener unchanged. -/
theorem listener_semantics :
    (∀ (doneOf : Nat → Bool) (s : ListenerS) (l : List Nat),
        (s.actions.map doneOf).any id = true → s.anyCbs = some l →
        (listenerStep doneOf s).2.anyFired = l ∧ (listenerStep doneOf s).1.anyCbs = none) ∧
    (∀ (doneOf : Nat → Bool) (s : ListenerS), s.anyCbs = none →
        (listenerStep doneOf s).2.anyFired = []) ∧
    (∀ (doneOf : Nat → Bool) (s : ListenerS), (s.actions.map doneOf).all id = false →
        (listenerStep doneOf s).1.resolved = s.resolved ∧
        (listenerStep doneOf s).2.removed = false ∧
        (listenerStep doneOf s).2.allFired = []) ∧
    (∀ (doneOf : Nat → Bool) (s : ListenerS) (la : List Nat),
        (s.actions.map doneOf).all id = true → s.allCbs = some la →
        (listenerStep doneOf s).2.allFired = la ∧
        (listenerStep doneOf s).1.resolved = true ∧
        (listenerStep doneOf s).2.removed = true) ∧
    (∀ (doneOf : Nat → Bool) (s : ListenerS),
        (listenerStep doneOf s).2.removed = true →
        (listenersPass doneOf [s]).1 = []) ∧
    (∀ (cb : Nat) (s : ListenerS), s.resolved = true →
        ListenerS.allDoneReg cb s = (s, [cb]) ∧ ListenerS.anyDoneReg cb s = (s, [cb])) := by
  refine ⟨?_, ?_, ?_, ?_, ?_, ?_⟩
  · intro doneOf s l hany hcbs
    cases hall : s.allCbs <;>
      by_cases hb : (s.actions.map doneOf).all id = true <;>
        simp [listenerStep, hcbs, hany, hall, hb]
  · intro doneOf s hcbs
    cases hall : s.allCbs <;>
      by_cases hb : (s.actions.map doneOf).all id = true <;>
        by_cases ha : (s.actions.map doneOf).any id = true <;>
          simp [listenerStep, hcbs, hall, hb, ha]
  · intro doneOf s hb
    cases hcbs : s.anyCbs <;> cases hall : s.allCbs <;>
      by_cases ha : (s.actions.map doneOf).any id = true <;>
        simp [listenerStep, hcbs, hall, hb, ha]
  · intro doneOf s la hb hall
    cases hcbs : s.anyCbs <;>
      by_cases ha : (s.actions.map doneOf).any id = true <;>
        simp [listenerStep, hcbs, hall, hb, ha]
  · intro doneOf s hrem
    simp [listenersPass, hrem]
  · intro cb s hres
    constructor <;> simp [ListenerS.allDoneReg, ListenerS.anyDoneReg, hres]

/-- Witness for the listener semantics at concrete inputs: a listener over
actions 0 and 1 with ANY-callback 7 and ALL-callback 8; action 0 done
fires [7]; both done fires [8] and resolves; registering callback 9 on a
resolved listener fires it immediately. -/
theorem listener_semantics_witness :
    (listenerStep (fun n => n == 0) ⟨[0, 1], false, some [7], some [8]⟩).2.anyFired = [7] ∧
    (listenerStep (fun n => n == 0) ⟨[0, 1], false, some [7], some [8]⟩).1.anyCbs = none ∧
    (listenerStep (fun _ => true) ⟨[0, 1], false, none, some [8]⟩).2.allFired = [8] ∧
    (listenerStep (fun _ => true) ⟨[0, 1], false, none, some [8]⟩).1.resolved = true ∧
    ListenerS.allDoneReg 9 ⟨[0, 1], true, none, none⟩ = (⟨[0, 1], true, none, none⟩, [9]) := by
  have h := listener_semantics
  exact ⟨(h.1 _ _ _ (by decide) rfl).1, (h.1 _ _ _ (by decide) rfl).2,
         (h.2.2.2.1 _ _ _ (by decide) rfl).1, (h.2.2.2.1 _ _ _ (by decide) rfl).2.1,
         (h.2.2.2.2.2 9 _ rfl).1⟩

/-! ## C7 -/

/-- C7: `addChild` on a target that already has a parent throws
synchronously before any mutation: the world (every sprite's children
list, parent and stage references) is returned exactly as it was, along
with the error. -/
theorem addChild_parented_error (w : World) (pid cid : Nat) (pos? : Option Nat)
    (p c : NodeRec) (q : Nat)
    (hp : nodeGet w pid = some p) (hc : nodeGet w cid = some c)
    (hq : c.parent? = some q) :
    addChildW w pid cid pos?
      = (w, some "canvas2d.Sprite.addChild(): Child has been added.") := by
  unfold addChildW
  rw [hp, hc]
  dsimp only
  rw [hq]
  rfl

/-- Witness: a three-sprite world where sprite 1 is already a child of
sprite 2; `addChild` from sprite 0 errors and returns the world
unchanged. -/
theorem addChild_parented_error_witness :
    addChildW
        [(0, ⟨none, none, none, {}⟩), (1, ⟨some 2, none, none, {}⟩),
         (2, ⟨none, none, some [1], {}⟩)] 0 1 none
      = ([(0, ⟨none, none, none, {}⟩), (1, ⟨some 2, none, none, {}⟩),
          (2, ⟨none, none, some [1], {}⟩)],
         some "canvas2d.Sprite.addChild(): Child has been added.") :=
  addChild_parented_error _ 0 1 none ⟨none, none, none, {}⟩ ⟨some 2, none, none, {}⟩ 2
    rfl rfl rfl

/-! ## C8 -/

/-- C8: a child with both `left` and `right` pins under a parent resolves
`width = parent.width - left - right` and `x = left + originPixelX`; and
when the parent's width changes to a new value, the width-changed child
re-layout re-resolves every such child's width against the new parent
width. -/
theorem edge_pin_resize :
    (∀ (pw l r : ℚ) (c : SpriteS), c.left? = some l → c.right? = some r →
        (SpriteS.resizeWidth (some pw) c).width = pw - l - r ∧
        (SpriteS.resizeWidth (some pw) c).x
          = l + (SpriteS.resizeWidth (some pw) c).originPixelX) ∧
    (∀ (f : Fam) (v : ℚ) (i : Nat) (c : SpriteS) (l r : ℚ),
        f.parent.width ≠ v → f.children[i]? = some c →
        c.left? = some l → c.right? = some r →
        ∃ c', (Fam.setWidth v f).children[i]? = some c' ∧ c'.width = v - l - r) := by
  constructor
  · exact fun pw l r c hl hr => resizeWidth_pins pw l r c hl hr
  · intro f v i c l r hne hci hl hr
    unfold Fam.setWidth
    rw [if_neg hne]
    dsimp only
    refine ⟨SpriteS.adjustAlignX (some v) (SpriteS.resizeWidth (some v) c), ?_, ?_⟩
    · rw [List.getElem?_map, hci]
      rfl
    · obtain ⟨x', hx⟩ := adjustAlignX_shape (some v) (SpriteS.resizeWidth (some v) c)
      rw [hx]
      exact (resizeWidth_pins v l r c hl hr).1

/-- Witness: `left = 10`, `right = 20` under a parent of width 200
resolves to width 170; setting the parent's width to 300 re-resolves the
child to width 270. -/
theorem edge_pin_resize_witness :
    (SpriteS.resizeWidth (some 200)
        ({ left? := some 10, right? := some 20 } : SpriteS)).width = 170 ∧
    ∃ c', (Fam.setWidth 300
            ⟨({ width := 200 } : SpriteS),
             [({ left? := some 10, right? := some 20 } : SpriteS)]⟩).children[0]?
          = some c' ∧ c'.width = 270 := by
  have h := edge_pin_resize
  constructor
  · exact ((h.1 200 10 20 ({ left? := some 10, right? := some 20 } : SpriteS)
      rfl rfl).1).trans (by norm_num)
  · obtain ⟨c', hc', hw⟩ := h.2
      ⟨({ width := 200 } : SpriteS), [({ left? := some 10, right? := some 20 } : SpriteS)]⟩
      300 0 ({ left? := some 10, right? := some 20 } : SpriteS) 10 20
      (by norm_num) rfl rfl rfl
    exact ⟨c', hc', hw.trans (by norm_num)⟩

/-- A single width-dimension setter (`left`/`right`/`percentWidth`) under
a parent leaves `autoResize = false`, and leaves the width resolved from
the pins whenever both pins are present afterwards. -/
theorem pinOpW_post (pw : ℚ) (ph? : Option ℚ) (o : PinOp) (s : SpriteS)
    (ho : o.widthDim = true) :
    (applyPinOp (some pw) ph? o s).autoResize = false ∧
    ∀ l r, (applyPinOp (some pw) ph? o s).left? = some l →
           (applyPinOp (some pw) ph? o s).right? = some r →
           (applyPinOp (some pw) ph? o s).width = pw - l - r := by
  cases o with
  | left v =>
    obtain ⟨w', opx', x', hsh⟩ :=
      resizeWidth_shape (some pw) { s with autoResize := false, left? := some v }
    constructor
    · show (SpriteS.setLeft (some pw) v s).autoResize = false
      unfold SpriteS.setLeft
      rw [hsh]
    · intro l r hl hr
      replace hl : some v = some l := by
        rw [show applyPinOp (some pw) ph? (.left v) s
              = SpriteS.resizeWidth (some pw) { s with autoResize := false, left? := some v }
            from rfl, hsh] at hl
        exact hl
      obtain rfl := Option.some.inj hl
      replace hr : s.right? = some r := by
        rw [show applyPinOp (some pw) ph? (.left v) s
              = SpriteS.resizeWidth (some pw) { s with autoResize := false, left? := some v }
            from rfl, hsh] at hr
        exact hr
      exact (resizeWidth_pins pw v r { s with autoResize := false, left? := some v }
        rfl hr).1
  | right v =>
    obtain ⟨w', opx', x', hsh⟩ :=
      resizeWidth_shape (some pw) { s with autoResize := false, right? := some v }
    constructor
    · show (SpriteS.setRight (some pw) v s).autoResize = false
      unfold SpriteS.setRight
      rw [hsh]
    · intro l r hl hr
      replace hl : s.left? = some l := by
        rw [show applyPinOp (some pw) ph? (.right v) s
              = SpriteS.resizeWidth (some pw) { s with autoResize := false, right? := some v }
            from rfl, hsh] at hl
        exact hl
      replace hr : some v = some r := by
        rw [show applyPinOp (some pw) ph? (.right v) s
              = SpriteS.resizeWidth (some pw) { s with autoResize := false, right? := some v }
            from rfl, hsh] at hr
        exact hr
      obtain rfl := Option.some.inj hr
      exact (resizeWidth_pins pw l v { s with autoResize := false, right? := some v }
        hl rfl).1
  | percentWidth v =>
    obtain ⟨w', opx', x', hsh⟩ :=
      resizeWidth_shape (some pw) { s with autoResize := false, percentWidth? := some v }
    constructor
    · show (SpriteS.setPercentWidth (some pw) v s).autoResize = false
      unfold SpriteS.setPercentWidth
      rw [hsh]
    · intro l r hl hr
      replace hl : s.left? = some l := by
        rw [show applyPinOp (some pw) ph? (.percentWidth v) s
              = SpriteS.resizeWidth (some pw)
                  { s with autoResize := false, percentWidth? := some v }
            from rfl, hsh] at hl
        exact hl
      replace hr : s.right? = some r := by
        rw [show applyPinOp (some pw) ph? (.percentWidth v) s
              = SpriteS.resizeWidth (some pw)
                  { s with autoResize := false, percentWidth? := some v }
            from rfl, hsh] at hr
        exact hr
      exact (resizeWidth_pins pw l r
        { s with autoResize := false, percentWidth? := some v } hl hr).1
  | top v => simp [PinOp.widthDim] at ho
  | bottom v => simp [PinOp.widthDim] at ho
  | percentHeight v => simp [PinOp.widthDim] at ho

/-- `_resizeHeight` with both pins present resolves
`height = parent.height - top - bottom` and repositions
`y = top + originPixelY`. -/
theorem resizeHeight_pins (ph t b : ℚ) (s : SpriteS)
    (ht : s.top? = some t) (hb : s.bottom? = some b) :
    (SpriteS.resizeHeight (some ph) s).height = ph - t - b ∧
    (SpriteS.resizeHeight (some ph) s).y
      = t + (SpriteS.resizeHeight (some ph) s).originPixelY := by
  unfold SpriteS.resizeHeight
  rw [ht, hb]
  exact ⟨setHeight_height (some ph) (ph - t - b) s, rfl⟩

/-- A single height-dimension setter (`top`/`bottom`/`percentHeight`)
under a parent leaves the height resolved from the pins whenever both
pins are present afterwards. -/
theorem pinOpH_post (ph : ℚ) (pw? : Option ℚ) (o : PinOp) (s : SpriteS)
    (ho : o.heightDim = true) :
    ∀ t b, (applyPinOp pw? (some ph) o s).top? = some t →
           (applyPinOp pw? (some ph) o s).bottom? = some b →
           (applyPinOp pw? (some ph) o s).height = ph - t - b := by
  cases o with
  | top v =>
    obtain ⟨h', opy', y', hsh⟩ :=
      resizeHeight_shape (some ph) { s with autoResize := false, top? := some v }
    intro t b htp hbt
    replace htp : some v = some t := by
      rw [show applyPinOp pw? (some ph) (.top v) s
            = SpriteS.resizeHeight (some ph) { s with autoResize := false, top? := some v }
          from rfl, hsh] at htp
      exact htp
    obtain rfl := Option.some.inj htp
    replace hbt : s.bottom? = some b := by
      rw [show applyPinOp pw? (some ph) (.top v) s
            = SpriteS.resizeHeight (some ph) { s with autoResize := false, top? := some v }
          from rfl, hsh] at hbt
      exact hbt
    exact (resizeHeight_pins ph v b { s with autoResize := false, top? := some v }
      rfl hbt).1
  | bottom v =>
    obtain ⟨h', opy', y', hsh⟩ :=
      resizeHeight_shape (some ph) { s with autoResize := false, bottom? := some v }
    intro t b htp hbt
    replace htp : s.top? = some t := by
      rw [show applyPinOp pw? (some ph) (.bottom v) s
            = SpriteS.resizeHeight (some ph) { s with autoResize := false, bottom? := some v }
          from rfl, hsh] at htp
      exact htp
    replace hbt : some v = some b := by
      rw [show applyPinOp pw? (some ph) (.bottom v) s
            = SpriteS.resizeHeight (some ph) { s with autoResize := false, bottom? := some v }
          from rfl, hsh] at hbt
      exact hbt
    obtain rfl := Option.some.inj hbt
    exact (resizeHeight_pins ph t v { s with autoResize := false, bottom? := some v }
      htp rfl).1
  | percentHeight v =>
    obtain ⟨h', opy', y', hsh⟩ :=
      resizeHeight_shape (some ph) { s with autoResize := false, percentHeight? := some v }
    intro t b htp hbt
    replace htp : s.top? = some t := by
      rw [show applyPinOp pw? (some ph) (.percentHeight v) s
            = SpriteS.resizeHeight (some ph)
                { s with autoResize := false, percentHeight? := some v }
          from rfl, hsh] at htp
      exact htp
    replace hbt : s.bottom? = some b := by
      rw [show applyPinOp pw? (some ph) (.percentHeight v) s
            = SpriteS.resizeHeight (some ph)
                { s with autoResize := false, percentHeight? := some v }
          from rfl, hsh] at hbt
      exact hbt
    exact (resizeHeight_pins ph t b
      { s with autoResize := false, percentHeight? := some v } htp hbt).1
  | left v => simp [PinOp.heightDim] at ho
  | right v => simp [PinOp.heightDim] at ho
  | percentWidth v => simp [PinOp.heightDim] at ho

/-- A height-dimension setter never touches `width`, `left` or `right`. -/
theorem pinOpH_preserves_w (pw? ph? : Option ℚ) (o : PinOp) (s : SpriteS)
    (ho : o.heightDim = true) :
    (applyPinOp pw? ph? o s).width = s.width ∧
    (applyPinOp pw? ph? o s).left? = s.left? ∧
    (applyPinOp pw? ph? o s).right? = s.right? := by
  cases o with
  | top v =>
    obtain ⟨h', opy', y', hsh⟩ :=
      resizeHeight_shape ph? { s with autoResize := false, top? := some v }
    show (SpriteS.setTop ph? v s).width = s.width ∧
      (SpriteS.setTop ph? v s).left? = s.left? ∧
      (SpriteS.setTop ph? v s).right? = s.right?
    unfold SpriteS.setTop
    rw [hsh]
    exact ⟨rfl, rfl, rfl⟩
  | bottom v =>
    obtain ⟨h', opy', y', hsh⟩ :=
      resizeHeight_shape ph? { s with autoResize := false, bottom? := some v }
    show (SpriteS.setBottom ph? v s).width = s.width ∧
      (SpriteS.setBottom ph? v s).left? = s.left? ∧
      (SpriteS.setBottom ph? v s).right? = s.right?
    unfold SpriteS.setBottom
    rw [hsh]
    exact ⟨rfl, rfl, rfl⟩
  | percentHeight v =>
    obtain ⟨h', opy', y', hsh⟩ :=
      resizeHeight_shape ph? { s with autoResize := false, percentHeight? := some v }
    show (SpriteS.setPercentHeight ph? v s).width = s.width ∧
      (SpriteS.setPercentHeight ph? v s).left? = s.left? ∧
      (SpriteS.setPercentHeight ph? v s).right? = s.right?
    unfold SpriteS.setPercentHeight
    rw [hsh]
    exact ⟨rfl, rfl, rfl⟩
  | left v => simp [PinOp.heightDim] at ho
  | right v => simp [PinOp.heightDim] at ho
  | percentWidth v => simp [PinOp.heightDim] at ho

/-- A width-dimension setter never touches `height`, `top` or `bottom`. -/
theorem pinOpW_preserves_h (pw? ph? : Option ℚ) (o : PinOp) (s : SpriteS)
    (ho : o.widthDim = true) :
    (applyPinOp pw? ph? o s).height = s.height ∧
    (applyPinOp pw? ph? o s).top? = s.top? ∧
    (applyPinOp pw? ph? o s).bottom? = s.bottom? := by
  cases o with
  | left v =>
    obtain ⟨w', opx', x', hsh⟩ :=
      resizeWidth_shape pw? { s with autoResize := false, left? := some v }
    show (SpriteS.setLeft pw? v s).height = s.height ∧
      (SpriteS.setLeft pw? v s).top? = s.top? ∧
      (SpriteS.setLeft pw? v s).bottom? = s.bottom?
    unfold SpriteS.setLeft
    rw [hsh]
    exact ⟨rfl, rfl, rfl⟩
  | right v =>
    obtain ⟨w', opx', x', hsh⟩ :=
      resizeWidth_shape pw? { s with autoResize := false, right? := some v }
    show (SpriteS.setRight pw? v s).height = s.height ∧
      (SpriteS.setRight pw? v s).top? = s.top? ∧
      (SpriteS.setRight pw? v s).bottom? = s.bottom?
    unfold SpriteS.setRight
    rw [hsh]
    exact ⟨rfl, rfl, rfl⟩
  | percentWidth v =>
    obtain ⟨w', opx', x', hsh⟩ :=
      resizeWidth_shape pw? { s with autoResize := false, percentWidth? := some v }
    show (SpriteS.setPercentWidth pw? v s).height = s.height ∧
      (SpriteS.setPercentWidth pw? v s).top? = s.top? ∧
      (SpriteS.setPercentWidth pw? v s).bottom? = s.bottom?
    unfold SpriteS.setPercentWidth
    rw [hsh]
    exact ⟨rfl, rfl, rfl⟩
  | top v => simp [PinOp.widthDim] at ho
  | bottom v => simp [PinOp.widthDim] at ho
  | percentHeight v => simp [PinOp.widthDim] at ho

/-- A sequence of height-dimension setters preserves an established
pin-resolved width. -/
theorem wres_after_hops (pw : ℚ) (pw? ph? : Option ℚ) (ops : List PinOp) (s : SpriteS)
    (hall : ∀ o ∈ ops, o.heightDim = true)
    (h : ∀ l r, s.left? = some l → s.right? = some r → s.width = pw - l - r) :
    ∀ l r, (applyPinOps pw? ph? ops s).left? = some l →
           (applyPinOps pw? ph? ops s).right? = some r →
           (applyPinOps pw? ph? ops s).width = pw - l - r := by
  induction ops generalizing s with
  | nil => exact h
  | cons o rest ih =>
    have hp := pinOpH_preserves_w pw? ph? o s (hall o (by simp))
    refine ih (applyPinOp pw? ph? o s)
      (fun o' ho' => hall o' (List.mem_cons_of_mem _ ho')) ?_
    intro l r hl hr
    rw [hp.2.1] at hl
    rw [hp.2.2] at hr
    rw [hp.1]
    exact h l r hl hr

/-- A sequence of width-dimension setters preserves an established
pin-resolved height. -/
theorem hres_after_wops (ph : ℚ) (pw? ph? : Option ℚ) (ops : List PinOp) (s : SpriteS)
    (hall : ∀ o ∈ ops, o.widthDim = true)
    (h : ∀ t b, s.top? = some t → s.bottom? = some b → s.height = ph - t - b) :
    ∀ t b, (applyPinOps pw? ph? ops s).top? = some t →
           (applyPinOps pw? ph? ops s).bottom? = some b →
           (applyPinOps pw? ph? ops s).height = ph - t - b := by
  induction ops generalizing s with
  | nil => exact h
  | cons o rest ih =>
    have hp := pinOpW_preserves_h pw? ph? o s (hall o (by simp))
    refine ih (applyPinOp pw? ph? o s)
      (fun o' ho' => hall o' (List.mem_cons_of_mem _ ho')) ?_
    intro t b htp hbt
    rw [hp.2.1] at htp
    rw [hp.2.2] at hbt
    rw [hp.1]
    exact h t b htp hbt

/-- Pins win in the width dimension over any interleaved setter sequence
that contains at least one width-dimension setter: the last
width-dimension setter re-resolves from the final pins, and the
height-dimension setters after it do not disturb the result. -/
theorem pins_win_w (pw : ℚ) (ph? : Option ℚ) (ops : List PinOp) (s : SpriteS)
    (hmem : ∃ o ∈ ops, o.widthDim = true) :
    ∀ l r, (applyPinOps (some pw) ph? ops s).left? = some l →
           (applyPinOps (some pw) ph? ops s).right? = some r →
           (applyPinOps (some pw) ph? ops s).width = pw - l - r := by
  induction ops generalizing s with
  | nil =>
    obtain ⟨o, ho, _⟩ := hmem
    exact absurd ho (List.not_mem_nil o)
  | cons o rest ih =>
    by_cases hrest : ∃ o' ∈ rest, o'.widthDim = true
    · exact ih (applyPinOp (some pw) ph? o s) hrest
    · push_neg at hrest
      have hallh : ∀ o' ∈ rest, o'.heightDim = true := by
        intro o' ho'
        have hno := hrest o' ho'
        cases o' <;> simp_all [PinOp.widthDim, PinOp.heightDim]
      obtain ⟨o', ho', hw⟩ := hmem
      rcases List.mem_cons.mp ho' with rfl | hmem'
      · exact wres_after_hops pw (some pw) ph? rest _ hallh
          ((pinOpW_post pw ph? o' s hw).2)
      · exact absurd hw (hrest o' hmem')

/-- Pins win in the height dimension, symmetrically. -/
theorem pins_win_h (ph : ℚ) (pw? : Option ℚ) (ops : List PinOp) (s : SpriteS)
    (hmem : ∃ o ∈ ops, o.heightDim = true) :
    ∀ t b, (applyPinOps pw? (some ph) ops s).top? = some t →
           (applyPinOps pw? (some ph) ops s).bottom? = some b →
           (applyPinOps pw? (some ph) ops s).height = ph - t - b := by
  induction ops generalizing s with
  | nil =>
    obtain ⟨o, ho, _⟩ := hmem
    exact absurd ho (List.not_mem_nil o)
  | cons o rest ih =>
    by_cases hrest : ∃ o' ∈ rest, o'.heightDim = true
    · exact ih (applyPinOp pw? (some ph) o s) hrest
    · push_neg at hrest
      have hallw : ∀ o' ∈ rest, o'.widthDim = true := by
        intro o' ho'
        have hno := hrest o' ho'
        cases o' <;> simp_all [PinOp.widthDim, PinOp.heightDim]
      obtain ⟨o', ho', hh⟩ := hmem
      rcases List.mem_cons.mp ho' with rfl | hmem'
      · exact hres_after_wops ph pw? (some ph) rest _ hallw
          (pinOpH_post ph pw? o' s hh)
      · exact absurd hh (hrest o' hmem')

/-- Every edge-pin or percent-size setter leaves `autoResize = false`. -/
theorem pinOp_autoResize (pw? ph? : Option ℚ) (o : PinOp) (s : SpriteS) :
    (applyPinOp pw? ph? o s).autoResize = false := by
  cases o with
  | left v =>
    obtain ⟨w', opx', x', hsh⟩ :=
      resizeWidth_shape pw? { s with autoResize := false, left? := some v }
    show (SpriteS.setLeft pw? v s).autoResize = false
    unfold SpriteS.setLeft
    rw [hsh]
  | right v =>
    obtain ⟨w', opx', x', hsh⟩ :=
      resizeWidth_shape pw? { s with autoResize := false, right? := some v }
    show (SpriteS.setRight pw? v s).autoResize = false
    unfold SpriteS.setRight
    rw [hsh]
  | percentWidth v =>
    obtain ⟨w', opx', x', hsh⟩ :=
      resizeWidth_shape pw? { s with autoResize := false, percentWidth? := some v }
    show (SpriteS.setPercentWidth pw? v s).autoResize = false
    unfold SpriteS.setPercentWidth
    rw [hsh]
  | top v =>
    obtain ⟨h', opy', y', hsh⟩ :=
      resizeHeight_shape ph? { s with autoResize := false, top? := some v }
    show (SpriteS.setTop ph? v s).autoResize = false
    unfold SpriteS.setTop
    rw [hsh]
  | bottom v =>
    obtain ⟨h', opy', y', hsh⟩ :=
      resizeHeight_shape ph? { s with autoResize := false, bottom? := some v }
    show (SpriteS.setBottom ph? v s).autoResize = false
    unfold SpriteS.setBottom
    rw [hsh]
  | percentHeight v =>
    obtain ⟨h', opy', y', hsh⟩ :=
      resizeHeight_shape ph? { s with autoResize := false, percentHeight? := some v }
    show (SpriteS.setPercentHeight ph? v s).autoResize = false
    unfold SpriteS.setPercentHeight
    rw [hsh]

/-- Any nonempty sequence of edge-pin or percent-size setters leaves
`autoResize = false`. -/
theorem pinOps_autoResize (pw? ph? : Option ℚ) (ops : List PinOp) (s : SpriteS)
    (hne : ops ≠ []) :
    (applyPinOps pw? ph? ops s).autoResize = false := by
  induction ops generalizing s with
  | nil => exact absurd rfl hne
  | cons o rest ih =>
    rcases eq_or_ne rest [] with rfl | hres
    · exact pinOp_autoResize pw? ph? o s
    · exact ih (applyPinOp pw? ph? o s) hres

/-! ## C9 -/

/-- C9: edge pins win over percent sizing in both dimensions, under any
interleaving of the six edge-pin/percent setters.  After any setter
sequence containing at least one width-dimension setter, if both `left`
and `right` are present the resolved width is
`parent.width - left - right` (the percent value is ignored while the
pins are present); symmetrically, after any sequence containing at least
one height-dimension setter, if both `top` and `bottom` are present the
resolved height is `parent.height - top - bottom`; and any nonempty
sequence of edge-pin or percent-size setters leaves
`autoResize = false`. -/
theorem pins_override_percent :
    (∀ (pw : ℚ) (ph? : Option ℚ) (ops : List PinOp) (s : SpriteS),
        (∃ o ∈ ops, o.widthDim = true) →
        ∀ l r, (applyPinOps (some pw) ph? ops s).left? = some l →
               (applyPinOps (some pw) ph? ops s).right? = some r →
               (applyPinOps (some pw) ph? ops s).width = pw - l - r) ∧
    (∀ (ph : ℚ) (pw? : Option ℚ) (ops : List PinOp) (s : SpriteS),
        (∃ o ∈ ops, o.heightDim = true) →
        ∀ t b, (applyPinOps pw? (some ph) ops s).top? = some t →
               (applyPinOps pw? (some ph) ops s).bottom? = some b →
               (applyPinOps pw? (some ph) ops s).height = ph - t - b) ∧
    (∀ (pw? ph? : Option ℚ) (ops : List PinOp) (s : SpriteS), ops ≠ [] →
        (applyPinOps pw? ph? ops s).autoResize = false) :=
  ⟨pins_win_w, pins_win_h, pinOps_autoResize⟩

set_option maxHeartbeats 1000000 in
/-- Witness: `percentWidth := 1/2; left := 10; right := 20; top := 5`
under a parent of width 200 and height 100 resolves width 170 (the
percent is ignored, and the trailing height setter does not disturb it)
with `autoResize = false`; and `percentHeight := 1/2; top := 5;
bottom := 15` resolves height 80. -/
theorem pins_override_percent_witness :
    (applyPinOps (some 200) (some 100)
        [.percentWidth (1/2), .left 10, .right 20, .top 5] {}).autoResize = false ∧
    (applyPinOps (some 200) (some 100)
        [.percentWidth (1/2), .left 10, .right 20, .top 5] {}).width = 170 ∧
    (applyPinOps (some 200) (some 100)
        [.percentHeight (1/2), .top 5, .bottom 15] {}).height = 80 := by
  have h := pins_override_percent
  refine ⟨h.2.2 (some 200) (some 100) _ {} (by simp),
          (h.1 200 (some 100) _ {} ⟨.left 10, by simp, rfl⟩ 10 20 ?_ ?_).trans
            (by norm_num),
          (h.2.1 100 (some 200) _ {} ⟨.top 5, by simp, rfl⟩ 5 15 ?_ ?_).trans
            (by norm_num)⟩ <;>
    norm_num [applyPinOps, applyPinOp, SpriteS.setPercentWidth, SpriteS.setLeft,
      SpriteS.setRight, SpriteS.setTop, SpriteS.setBottom, SpriteS.setPercentHeight,
      SpriteS.resizeWidth, SpriteS.resizeHeight, SpriteS.setWidth, SpriteS.setHeight,
      SpriteS.adjustAlignX, SpriteS.adjustAlignY]

/-! ## C10 -/

/-- C10: assigning a null texture when the current texture is non-null
runs the normal width/height setters with 0 when `autoResize` is still
true (so width and height become 0, with the usual setter side effects),
and changes nothing but the stored texture when `autoResize` is false. -/
theorem texture_null_resets_size (pw? ph? : Option ℚ) (s : SpriteS) (t : TextureS)
    (ht : s.texture? = some t) :
    (s.autoResize = true →
       SpriteS.setTexture pw? ph? none s
         = SpriteS.setHeight ph? 0 (SpriteS.setWidth pw? 0 { s with texture? := none }) ∧
       (SpriteS.setTexture pw? ph? none s).width = 0 ∧
       (SpriteS.setTexture pw? ph? none s).height = 0) ∧
    (s.autoResize = false →
       SpriteS.setTexture pw? ph? none s = { s with texture? := none }) := by
  have hne : s.texture? ≠ (none : Option TextureS) := by simp [ht]
  unfold SpriteS.setTexture
  rw [if_neg hne]
  dsimp only
  constructor
  · intro har
    have hcond : ¬((!s.autoResize) = true) := by simp [har]
    rw [if_neg hcond]
    refine ⟨rfl, ?_, setHeight_height ph? 0 _⟩
    obtain ⟨opy', y', hsh⟩ :=
      setHeight_shape ph? 0 (SpriteS.setWidth pw? 0 { s with texture? := none })
    rw [hsh]
    exact setWidth_width pw? 0 { s with texture? := none }
  · intro har
    have hcond : (!s.autoResize) = true := by simp [har]
    rw [if_pos hcond]

/-- Witness: a ready 50×60 texture on an auto-resizing sprite; assigning
null zeroes both dimensions; with `autoResize = false` only the texture
reference changes. -/
theorem texture_null_resets_size_witness :
    (SpriteS.setTexture none none none
        ({ width := 50, height := 60, texture? := some ⟨1, 50, 60, true⟩ } : SpriteS)).width
      = 0 ∧
    (SpriteS.setTexture none none none
        ({ width := 50, height := 60, texture? := some ⟨1, 50, 60, true⟩ } : SpriteS)).height
      = 0 ∧
    SpriteS.setTexture none none none
        ({ width := 50, texture? := some ⟨1, 50, 60, true⟩, autoResize := false } : SpriteS)
      = ({ width := 50, texture? := none, autoResize := false } : SpriteS) := by
  have h₁ := texture_null_resets_size none none
    ({ width := 50, height := 60, texture? := some ⟨1, 50, 60, true⟩ } : SpriteS)
    ⟨1, 50, 60, true⟩ rfl
  have h₂ := texture_null_resets_size none none
    ({ width := 50, texture? := some ⟨1, 50, 60, true⟩, autoResize := false } : SpriteS)
    ⟨1, 50, 60, true⟩ rfl
  exact ⟨(h₁.1 rfl).2.1, (h₁.1 rfl).2.2, (h₂.2 rfl).trans rfl⟩

/-! ## C1 -/

/-- C1, counterexample: for the queue `[Callback, Delay(1.0), Callback]`,
started and ticked once with `deltaTime = 1.5`, it is NOT the case that
the queue then holds exactly one element with the action not yet done:
`Delay.immediate` is `true` in the source, so chaining does not halt at
the completed Delay. -/
theorem delay_chain_claim_false :
    ¬ (((storeGet (engineStep (3/2) C1engine).1.store 0).map fun a => a.queue.length)
          = some 1 ∧
       ((storeGet (engineStep (3/2) C1engine).1.store 0).map fun a => a.done)
          = some false) := by
  norm_num [C1engine, C1action, engineStep, stepActive, storeGet, storeSet, storeDone,
    listenersPass, startAction, addArrayItem, mkAction, ActionS.thenCb, ActionS.wait,
    actionStep, actionStepQ, defStep, xSprite, ActionDef.done, ActionDef.immediate]

/-- C1, amended: after `start()` and a single engine tick with
`deltaTime = 1.5`, the queue advances past the immediate Callback and the
completed Delay, and — since `Delay` is also immediate — chains on through
the second Callback in the same tick: both callbacks fire (ids 0 then 1),
the queue is left empty, and the Action is marked done. -/
theorem delay_chain_drains_queue :
    ((storeGet (engineStep (3/2) C1engine).1.store 0).map fun a => a.queue.length)
        = some 0 ∧
    ((storeGet (engineStep (3/2) C1engine).1.store 0).map fun a => a.done)
        = some true ∧
    (engineStep (3/2) C1engine).2 = [0, 1] := by
  norm_num [C1engine, C1action, engineStep, stepActive, storeGet, storeSet, storeDone,
    listenersPass, startAction, addArrayItem, mkAction, ActionS.thenCb, ActionS.wait,
    actionStep, actionStepQ, defStep, xSprite, ActionDef.done, ActionDef.immediate]

/-! ## C2 -/

/-- C2: on the engine tick `Action.step(1)` over the active list
`[id 0 ↦ Callback-only action, id 1 ↦ Delay(10) action]`, action 0 drains
and is removed, but action 1 — present in the active list at the start of
the call — is never advanced during the call: its `Delay` still has
`elapsed = 0` (the loop incremented its index past it after the removal),
in contradiction with the claimed exactly-once advance of every action. -/
theorem engine_loop_skips_after_removal :
    (engineStep 1 C2engine).1.active = [1] ∧
    storeGet (engineStep 1 C2engine).1.store 1 =
      some { queue := [.delay 10 0 false], done := false, running := true,
             sprite? := some xSprite } ∧
    storeGet (engineStep 1 C2engine).1.store 0 =
      some { queue := [], done := true, running := false, sprite? := none } ∧
    (engineStep 1 C2engine).2 = [0] := by
  norm_num [C2engine, engineStep, stepActive, storeGet, storeSet, storeDone,
    listenersPass, startAction, addArrayItem, mkAction, ActionS.thenCb, ActionS.wait,
    actionStep, actionStepQ, defStep, xSprite, ActionDef.done, ActionDef.immediate]

end Canvas2d
